import Mathlib

/-!
Verification of the GPU-cluster scheduling simulator core.

The definitions below are a shallow embedding of the Go sources:
  pkg/utils/frag.go, pkg/algo/greed.go, pkg/simulator/plugin/pwr_score.go.
Go float64 values are modelled as rationals, Go int64/int as Int.
Functions of the repository that are not part of the provided sources
(the simontype resource records and their methods) are modelled from the
specification and carry a doc comment saying so.
-/

namespace SchedSim

/-- Modelled from the spec: the PodResource record of pkg/type (absent from
src/): an immutable per-pod request with CPU millicores, memory bytes,
per-GPU thousandths, GPU count and an optional required GPU model. -/
structure PodResource where
  MilliCpu : Int
  Memory : Int
  MilliGpu : Int
  GpuNumber : Int
  GpuType : String
deriving DecidableEq, Repr

/-- Modelled from the spec: the NodeResource record of pkg/type (absent from
src/): mutable per-node remaining capacity, with one remaining-millis entry
per physical GPU. -/
structure NodeResource where
  NodeName : String
  MilliCpuLeft : Int
  MemoryLeft : Int
  MilliGpuLeftList : List Int
  GpuType : String
deriving DecidableEq, Repr

/-- Modelled from the spec: a TargetPod pairs a pod shape with its share of
the reference workload. -/
structure TargetPod where
  TargetPodResource : PodResource
  Percentage : ℚ
deriving DecidableEq, Repr

abbrev TargetPodList := List TargetPod

/-- Fragmentation category constants of frag.go lines 17-25. -/
def Q1LackBoth : String := "q1_lack_both"

def Q2LackGpu : String := "q2_lack_gpu"

def Q3Satisfied : String := "q3_satisfied"

def Q4LackCpu : String := "q4_lack_cpu"

def XLSatisfied : String := "xl_satisfied"

def XRLackCPU : String := "xr_lack_cpu"

def NoAccess : String := "no_access"

/-- The category index map FragRatioDataMap of frag.go lines 27-35,
as a partial function from category name to index. -/
def fragRatioIdx (s : String) : Option Nat :=
  if s = Q1LackBoth then some 0
  else if s = Q2LackGpu then some 1
  else if s = Q3Satisfied then some 2
  else if s = Q4LackCpu then some 3
  else if s = XLSatisfied then some 4
  else if s = XRLackCPU then some 5
  else if s = NoAccess then some 6
  else none

/-- The seven category names, in index order. -/
def FragCategories : List String :=
  [Q1LackBoth, Q2LackGpu, Q3Satisfied, Q4LackCpu, XLSatisfied, XRLackCPU, NoAccess]

/-- The loop of CanNodeHostPodOnGpuMemory, frag.go lines 447-458: walk the
per-GPU remaining millis, decrement the outstanding GPU request on every
entry that can hold the pod's share, and succeed as soon as the request
drops to zero or below. -/
def canHostAux (milliGpu : Int) : Int → List Int → Bool
  | _, [] => false
  | gpuRequest, g :: rest =>
    if milliGpu ≤ g then
      if gpuRequest - 1 ≤ 0 then true else canHostAux milliGpu (gpuRequest - 1) rest
    else canHostAux milliGpu gpuRequest rest

/-- CanNodeHostPodOnGpuMemory of frag.go lines 447-458. -/
def CanNodeHostPodOnGpuMemory (nodeRes : NodeResource) (podRes : PodResource) : Bool :=
  canHostAux podRes.MilliGpu podRes.GpuNumber nodeRes.MilliGpuLeftList

/-- Modelled from the spec: IsNodeAccessibleToPod of pkg/utils (absent from
src/), section 4.1: a node is accessible when the pod requires no GPU, or
sets no GPU type, or its required type equals the node's type.  The GPU
capacity test is performed separately by GetNodePodFrag (section 4.3 checks
CanNodeHostPodOnGpuMemory after accessibility), so accessibility is the
type-compatibility part. -/
def IsNodeAccessibleToPod (nodeRes : NodeResource) (podRes : PodResource) : Bool :=
  decide (podRes.MilliGpu = 0 ∨ podRes.GpuType = "" ∨ podRes.GpuType = nodeRes.GpuType)

/-- GetNodePodFrag of frag.go lines 460-493. -/
def GetNodePodFrag (nodeRes : NodeResource) (podRes : PodResource) : String :=
  if podRes.MilliGpu = 0 then
    if podRes.MilliCpu ≤ nodeRes.MilliCpuLeft then XLSatisfied else XRLackCPU
  else if IsNodeAccessibleToPod nodeRes podRes = false then NoAccess
  else if CanNodeHostPodOnGpuMemory nodeRes podRes then
    if podRes.MilliCpu ≤ nodeRes.MilliCpuLeft then Q3Satisfied else Q4LackCpu
  else
    if podRes.MilliCpu ≤ nodeRes.MilliCpuLeft then Q2LackGpu else Q1LackBoth

/-- Number of entries of the node's per-GPU remaining millis that can hold
the pod's GPU-share request. -/
def countSatisfying (nodeRes : NodeResource) (podRes : PodResource) : Nat :=
  (nodeRes.MilliGpuLeftList.filter (fun g => podRes.MilliGpu ≤ g)).length

lemma canHostAux_iff (milliGpu : Int) :
    ∀ (req : Int) (l : List Int),
      canHostAux milliGpu req l = true ↔
        max req 1 ≤ ((l.filter (fun g => milliGpu ≤ g)).length : Int) := by
  intro req l
  induction l generalizing req with
  | nil =>
    simp [canHostAux]
  | cons g rest ih =>
    by_cases hg : milliGpu ≤ g
    · by_cases hreq : req - 1 ≤ 0
      · simp [canHostAux, hg, hreq, List.filter]
        omega
      · have := ih (req - 1)
        simp [canHostAux, hg, hreq, List.filter] at this ⊢
        rw [this]
        omega
    · have := ih req
      simp [canHostAux, hg, List.filter] at this ⊢
      rw [this]

/-- An empty node: no CPU, no memory, no GPUs. -/
def nodeNoGpu : NodeResource :=
  { NodeName := "n0", MilliCpuLeft := 0, MemoryLeft := 0, MilliGpuLeftList := [], GpuType := "" }

/-- A pod requesting nothing at all, in particular zero GPUs. -/
def podZeroGpu : PodResource :=
  { MilliCpu := 0, Memory := 0, MilliGpu := 0, GpuNumber := 0, GpuType := "" }

/-- C1: GetNodePodFrag returns exactly one of the seven categories, chosen
by the documented decision tree: a GPU-free pod yields XLSatisfied or
XRLackCPU by the CPU test; an inaccessible node yields NoAccess; otherwise
the GPU-memory test picks the Q3/Q4 pair or the Q2/Q1 pair and the CPU test
picks inside the pair. -/
theorem getNodePodFrag_decision_tree (n : NodeResource) (p : PodResource) :
    (∃! c, c ∈ FragCategories ∧ GetNodePodFrag n p = c)
    ∧ (GetNodePodFrag n p = XLSatisfied ↔
        p.MilliGpu = 0 ∧ p.MilliCpu ≤ n.MilliCpuLeft)
    ∧ (GetNodePodFrag n p = XRLackCPU ↔
        p.MilliGpu = 0 ∧ ¬p.MilliCpu ≤ n.MilliCpuLeft)
    ∧ (GetNodePodFrag n p = NoAccess ↔
        p.MilliGpu ≠ 0 ∧ IsNodeAccessibleToPod n p = false)
    ∧ (GetNodePodFrag n p = Q3Satisfied ↔
        p.MilliGpu ≠ 0 ∧ IsNodeAccessibleToPod n p = true ∧
        CanNodeHostPodOnGpuMemory n p = true ∧ p.MilliCpu ≤ n.MilliCpuLeft)
    ∧ (GetNodePodFrag n p = Q4LackCpu ↔
        p.MilliGpu ≠ 0 ∧ IsNodeAccessibleToPod n p = true ∧
        CanNodeHostPodOnGpuMemory n p = true ∧ ¬p.MilliCpu ≤ n.MilliCpuLeft)
    ∧ (GetNodePodFrag n p = Q2LackGpu ↔
        p.MilliGpu ≠ 0 ∧ IsNodeAccessibleToPod n p = true ∧
        CanNodeHostPodOnGpuMemory n p = false ∧ p.MilliCpu ≤ n.MilliCpuLeft)
    ∧ (GetNodePodFrag n p = Q1LackBoth ↔
        p.MilliGpu ≠ 0 ∧ IsNodeAccessibleToPod n p = true ∧
        CanNodeHostPodOnGpuMemory n p = false ∧ ¬p.MilliCpu ≤ n.MilliCpuLeft) := by
  unfold GetNodePodFrag
  refine ⟨?_, ?_⟩
  · split_ifs <;>
      exact ⟨_, ⟨by simp [FragCategories], rfl⟩, fun c hc => hc.2.symm⟩
  · split_ifs with h1 h2 h3 h4 h5 h6 <;>
      refine ⟨?_, ?_, ?_, ?_, ?_, ?_, ?_⟩ <;>
      first
        | (refine iff_of_true rfl ?_; simp_all)
        | (refine iff_of_false (by decide) ?_; simp_all)

/-- C5 counterexample: for the GPU-less pod on a node with no GPUs, the
claimed condition holds vacuously (at least zero entries satisfy the
request) yet CanNodeHostPodOnGpuMemory returns false, because the loop can
only succeed after decrementing on some satisfying entry. -/
theorem canNodeHostPod_gpuZero_counterexample :
    podZeroGpu.GpuNumber ≤ (countSatisfying nodeNoGpu podZeroGpu : Int)
    ∧ CanNodeHostPodOnGpuMemory nodeNoGpu podZeroGpu = false := by
  decide

/-- C5 amended: CanNodeHostPodOnGpuMemory returns true exactly when at
least max(pod.gpuNumber, 1) entries of the node's remaining per-GPU millis
are at least pod.milliGpu; a request for zero (or negatively many) GPUs is
treated like a request for one. -/
theorem canNodeHostPod_iff_count (n : NodeResource) (p : PodResource) :
    CanNodeHostPodOnGpuMemory n p = true ↔
      max p.GpuNumber 1 ≤ (countSatisfying n p : Int) :=
  canHostAux_iff p.MilliGpu p.GpuNumber n.MilliGpuLeftList

/-! ### Fragmentation amounts (frag.go lines 43-97 and 148-229) -/

/-- FragAmount of frag.go lines 43-46: a node name with a per-category
vector of fragmented GPU millis. -/
structure FragAmount where
  NodeName : String
  Data : List ℚ
deriving DecidableEq, Repr

/-- GetGpuMilliLeftTotal of frag.go lines 224-229: total remaining GPU
millis of the node. -/
def GetGpuMilliLeftTotal (nodeRes : NodeResource) : Int :=
  nodeRes.MilliGpuLeftList.sum

/-- GetGpuFragMilliByNodeResAndPodRes of frag.go lines 205-213: the summed
per-GPU remaining millis that are strictly below the pod's share request. -/
def GetGpuFragMilliByNodeResAndPodRes (nodeRes : NodeResource) (podRes : PodResource) : Int :=
  nodeRes.MilliGpuLeftList.foldl (fun acc g => if g < podRes.MilliGpu then acc + g else acc) 0

/-- AddByFragType of frag.go lines 86-97, as seen by a caller that ignores
the returned error: negative amounts and unknown categories leave the data
untouched, otherwise the indexed entry grows by the amount.  (The Go code
would panic on an index beyond the slice; all callers pass seven-entry
data, where every category index is in range.) -/
def applyAddByFragType (data : List ℚ) (fragType : String) (amount : ℚ) : List ℚ :=
  if amount < 0 then data
  else
    match fragRatioIdx fragType with
    | none => data
    | some i => data.set i (data.getD i 0 + amount)

/-- The loop body of NodeGpuShareFragAmount, frag.go lines 153-186: skip
pods with a percentage outside [0,1]; for a Q3Satisfied pod split the
remaining GPU millis into the fragment part (booked on Q2LackGpu) and the
rest (booked on Q3Satisfied); for every other category book all remaining
GPU millis on that category. -/
def shareFragStep (nodeRes : NodeResource) (data : List ℚ) (pod : TargetPod) : List ℚ :=
  if pod.Percentage < 0 ∨ 1 < pod.Percentage then data
  else
    let fragType := GetNodePodFrag nodeRes pod.TargetPodResource
    let gpuMilliLeftTotal : ℚ := (GetGpuMilliLeftTotal nodeRes : ℚ)
    if fragType = Q3Satisfied then
      let gpuFragMilli : ℚ := (GetGpuFragMilliByNodeResAndPodRes nodeRes pod.TargetPodResource : ℚ)
      applyAddByFragType
        (applyAddByFragType data Q2LackGpu (pod.Percentage * gpuFragMilli))
        Q3Satisfied (pod.Percentage * (gpuMilliLeftTotal - gpuFragMilli))
    else
      applyAddByFragType data fragType (pod.Percentage * gpuMilliLeftTotal)

/-- NodeGpuShareFragAmount of frag.go lines 148-188. -/
def NodeGpuShareFragAmount (nodeRes : NodeResource) (typicalPods : TargetPodList) : FragAmount :=
  { NodeName := nodeRes.NodeName
    Data := typicalPods.foldl (shareFragStep nodeRes) (List.replicate 7 0) }

/-- AddGamma of frag.go lines 66-80, from the caller's point of view.  The
Go method has a value receiver, so the struct and its slice header are
copied: writes through a non-empty slice reach the caller's backing array,
but the allocation performed when Data is empty replaces only the copy's
slice and the caller keeps its empty Data.  The result is the
caller-visible Data after the call together with an error flag (true means
an error was returned). -/
def AddGammaCallerData (data otherData : List ℚ) (gamma : ℚ) : List ℚ × Bool :=
  let work := if data.length = 0 then List.replicate 7 (0 : ℚ) else data
  if work.length = otherData.length then
    (if data.length = 0 then data
     else List.zipWith (fun a b => a + gamma * b) work otherData, false)
  else (data, true)

lemma getD_set_self (l : List ℚ) (i : Nat) (v : ℚ) (h : i < l.length) :
    (l.set i v).getD i 0 = v := by
  simp [List.getD_eq_getElem?_getD, List.getElem?_set_self, h]

lemma getD_set_ne (l : List ℚ) (i j : Nat) (v : ℚ) (h : i ≠ j) :
    (l.set i v).getD j 0 = l.getD j 0 := by
  simp [List.getD_eq_getElem?_getD, List.getElem?_set_ne h]

lemma foldl_frag_eq (m : Int) :
    ∀ (l : List Int) (acc : Int),
      l.foldl (fun acc g => if g < m then acc + g else acc) acc
        = acc + (l.filter (fun g => g < m)).sum := by
  intro l
  induction l with
  | nil => simp
  | cons g rest ih =>
    intro acc
    by_cases hg : g < m
    · simp [List.filter, hg, ih]
      ring
    · simp [List.filter, hg, ih]

lemma sum_filter_le_sum (l : List Int) (h : ∀ x ∈ l, 0 ≤ x) (p : Int → Bool) :
    (l.filter p).sum ≤ l.sum := by
  induction l with
  | nil => simp
  | cons a rest ih =>
    have ha : 0 ≤ a := h a (by simp)
    have hrest : ∀ x ∈ rest, 0 ≤ x := fun x hx => h x (by simp [hx])
    have := ih hrest
    by_cases hp : p a <;> simp [List.filter, hp] <;> omega

/-- The non-Q3 categories all map to an index other than 2. -/
lemma fragIdx_cases (n : NodeResource) (p : PodResource) :
    GetNodePodFrag n p = Q3Satisfied ∨
      ∃ k, k < 7 ∧ k ≠ 2 ∧ fragRatioIdx (GetNodePodFrag n p) = some k := by
  unfold GetNodePodFrag
  split_ifs <;>
    first
      | exact Or.inl rfl
      | exact Or.inr ⟨0, by decide, by decide, by decide⟩
      | exact Or.inr ⟨1, by decide, by decide, by decide⟩
      | exact Or.inr ⟨3, by decide, by decide, by decide⟩
      | exact Or.inr ⟨4, by decide, by decide, by decide⟩
      | exact Or.inr ⟨5, by decide, by decide, by decide⟩
      | exact Or.inr ⟨6, by decide, by decide, by decide⟩

lemma applyAdd_spec (data : List ℚ) (ft : String) (k : Nat) (a : ℚ)
    (hk : fragRatioIdx ft = some k) (ha : 0 ≤ a) (hklen : k < data.length) :
    (applyAddByFragType data ft a).getD k 0 = data.getD k 0 + a
    ∧ (∀ j, j ≠ k → (applyAddByFragType data ft a).getD j 0 = data.getD j 0)
    ∧ (applyAddByFragType data ft a).length = data.length := by
  unfold applyAddByFragType
  rw [if_neg (not_lt.2 ha), hk]
  exact ⟨getD_set_self _ _ _ hklen,
    fun j hj => getD_set_ne _ _ _ _ (fun h => hj h.symm), List.length_set _ _ _⟩

lemma gpuFragMilli_nonneg (n : NodeResource) (p : PodResource)
    (hg : ∀ g ∈ n.MilliGpuLeftList, (0 : Int) ≤ g) :
    0 ≤ GetGpuFragMilliByNodeResAndPodRes n p := by
  rw [GetGpuFragMilliByNodeResAndPodRes, foldl_frag_eq, zero_add]
  exact List.sum_nonneg fun x hx => hg x (List.mem_of_mem_filter hx)

lemma gpuFragMilli_le_total (n : NodeResource) (p : PodResource)
    (hg : ∀ g ∈ n.MilliGpuLeftList, (0 : Int) ≤ g) :
    GetGpuFragMilliByNodeResAndPodRes n p ≤ GetGpuMilliLeftTotal n := by
  rw [GetGpuFragMilliByNodeResAndPodRes, foldl_frag_eq, zero_add, GetGpuMilliLeftTotal]
  exact sum_filter_le_sum _ hg _

/-- C2: per typical pod with percentage in [0,1], NodeGpuShareFragAmount's
loop body books, for a Q3Satisfied pod, f times the fragment millis on
Q2LackGpu (index 1) and f times the remaining millis on Q3Satisfied (index
2); for every other category it books f times the total remaining millis on
that category's index; no other entry moves.  The node invariant of
nonnegative per-GPU remaining millis keeps the booked amounts nonnegative,
so the AddByFragType guard never fires. -/
theorem nodeGpuShareFragAmount_step (n : NodeResource) (data : List ℚ) (pod : TargetPod)
    (hg : ∀ g ∈ n.MilliGpuLeftList, (0 : Int) ≤ g)
    (hf0 : 0 ≤ pod.Percentage) (hf1 : pod.Percentage ≤ 1)
    (hlen : data.length = 7) :
    (GetNodePodFrag n pod.TargetPodResource = Q3Satisfied →
      (shareFragStep n data pod).getD 1 0
          = data.getD 1 0
            + pod.Percentage * (GetGpuFragMilliByNodeResAndPodRes n pod.TargetPodResource : ℚ)
      ∧ (shareFragStep n data pod).getD 2 0
          = data.getD 2 0
            + pod.Percentage * ((GetGpuMilliLeftTotal n : ℚ)
                - (GetGpuFragMilliByNodeResAndPodRes n pod.TargetPodResource : ℚ))
      ∧ ∀ j, j ≠ 1 → j ≠ 2 → (shareFragStep n data pod).getD j 0 = data.getD j 0)
    ∧ (GetNodePodFrag n pod.TargetPodResource ≠ Q3Satisfied →
      ∃ k, fragRatioIdx (GetNodePodFrag n pod.TargetPodResource) = some k ∧
        (shareFragStep n data pod).getD k 0
            = data.getD k 0 + pod.Percentage * (GetGpuMilliLeftTotal n : ℚ)
        ∧ ∀ j, j ≠ k → (shareFragStep n data pod).getD j 0 = data.getD j 0) := by
  have hguard : ¬(pod.Percentage < 0 ∨ 1 < pod.Percentage) := by
    rw [not_or]
    exact ⟨not_lt.2 hf0, not_lt.2 hf1⟩
  have hfragnn := gpuFragMilli_nonneg n pod.TargetPodResource hg
  have hfragle := gpuFragMilli_le_total n pod.TargetPodResource hg
  have ha1 : 0 ≤ pod.Percentage * (GetGpuFragMilliByNodeResAndPodRes n pod.TargetPodResource : ℚ) :=
    mul_nonneg hf0 (by exact_mod_cast hfragnn)
  have ha2 : 0 ≤ pod.Percentage * ((GetGpuMilliLeftTotal n : ℚ)
      - (GetGpuFragMilliByNodeResAndPodRes n pod.TargetPodResource : ℚ)) :=
    mul_nonneg hf0 (sub_nonneg.2 (by exact_mod_cast hfragle))
  have ha3 : 0 ≤ pod.Percentage * (GetGpuMilliLeftTotal n : ℚ) := by
    have : (0 : Int) ≤ GetGpuMilliLeftTotal n := le_trans hfragnn hfragle
    exact mul_nonneg hf0 (by exact_mod_cast this)
  constructor
  · intro hq3
    have hidx1 : fragRatioIdx Q2LackGpu = some 1 := by decide
    have hidx2 : fragRatioIdx Q3Satisfied = some 2 := by decide
    obtain ⟨hset1, hkeep1, hlen1⟩ :=
      applyAdd_spec data Q2LackGpu 1
        (pod.Percentage * (GetGpuFragMilliByNodeResAndPodRes n pod.TargetPodResource : ℚ))
        hidx1 ha1 (by omega)
    obtain ⟨hset2, hkeep2, hlen2⟩ :=
      applyAdd_spec (applyAddByFragType data Q2LackGpu
          (pod.Percentage * (GetGpuFragMilliByNodeResAndPodRes n pod.TargetPodResource : ℚ)))
        Q3Satisfied 2
        (pod.Percentage * ((GetGpuMilliLeftTotal n : ℚ)
            - (GetGpuFragMilliByNodeResAndPodRes n pod.TargetPodResource : ℚ)))
        hidx2 ha2 (by omega)
    have hstep : shareFragStep n data pod
        = applyAddByFragType
            (applyAddByFragType data Q2LackGpu
              (pod.Percentage * (GetGpuFragMilliByNodeResAndPodRes n pod.TargetPodResource : ℚ)))
            Q3Satisfied
            (pod.Percentage * ((GetGpuMilliLeftTotal n : ℚ)
                - (GetGpuFragMilliByNodeResAndPodRes n pod.TargetPodResource : ℚ))) := by
      unfold shareFragStep
      rw [if_neg hguard, if_pos hq3]
    rw [hstep]
    refine ⟨?_, ?_, ?_⟩
    · rw [hkeep2 1 (by omega), hset1]
    · rw [hset2, hkeep1 2 (by omega)]
    · intro j hj1 hj2
      rw [hkeep2 j hj2, hkeep1 j hj1]
  · intro hq3
    rcases fragIdx_cases n pod.TargetPodResource with h | ⟨k, hk7, -, hk⟩
    · exact absurd h hq3
    obtain ⟨hset, hkeep, -⟩ :=
      applyAdd_spec data (GetNodePodFrag n pod.TargetPodResource) k
        (pod.Percentage * (GetGpuMilliLeftTotal n : ℚ)) hk ha3 (by omega)
    have hstep : shareFragStep n data pod
        = applyAddByFragType data (GetNodePodFrag n pod.TargetPodResource)
            (pod.Percentage * (GetGpuMilliLeftTotal n : ℚ)) := by
      unfold shareFragStep
      rw [if_neg hguard, if_neg hq3]
    rw [hstep]
    exact ⟨k, hk, hset, hkeep⟩

/-- A node with one partially used and one idle GPU, for concrete checks. -/
def nodeTwoGpu : NodeResource :=
  { NodeName := "n1", MilliCpuLeft := 1000, MemoryLeft := 0,
    MilliGpuLeftList := [300, 1000], GpuType := "V100" }

/-- A GPU-share pod that the two-GPU node can satisfy. -/
def podHalfGpu : PodResource :=
  { MilliCpu := 500, Memory := 0, MilliGpu := 500, GpuNumber := 1, GpuType := "" }

/-- C2 witness: on the concrete two-GPU node the half-GPU pod with
percentage one half is Q3Satisfied; the fragment part 300 lands on index 1
and the rest 1000 on index 2, scaled by the percentage. -/
theorem nodeGpuShareFragAmount_step_witness :
    (shareFragStep nodeTwoGpu (List.replicate 7 0) ⟨podHalfGpu, 1/2⟩).getD 1 0 = 150
    ∧ (shareFragStep nodeTwoGpu (List.replicate 7 0) ⟨podHalfGpu, 1/2⟩).getD 2 0 = 500 := by
  have h := nodeGpuShareFragAmount_step nodeTwoGpu (List.replicate 7 0) ⟨podHalfGpu, 1/2⟩
    (by decide) (by norm_num) (by norm_num) (by decide)
  have hq3 : GetNodePodFrag nodeTwoGpu podHalfGpu = Q3Satisfied := by decide
  obtain ⟨h1, h2, -⟩ := h.1 hq3
  rw [h1, h2]
  constructor
  · rw [show GetGpuFragMilliByNodeResAndPodRes nodeTwoGpu podHalfGpu = 300 from by decide]
    norm_num
  · rw [show GetGpuFragMilliByNodeResAndPodRes nodeTwoGpu podHalfGpu = 300 from by decide,
      show GetGpuMilliLeftTotal nodeTwoGpu = 1300 from by decide]
    norm_num

/-- C9 counterexample: calling AddGamma on a receiver with empty Data and a
seven-entry nonzero other returns no error, yet the caller's Data does not
gain the increments: the writes go to a fresh allocation the caller never
sees. -/
theorem addGamma_firstUse_counterexample :
    (AddGammaCallerData [] (List.replicate 7 (1 : ℚ)) 1).2 = false
    ∧ (AddGammaCallerData [] (List.replicate 7 (1 : ℚ)) 1).1
        ≠ List.zipWith (fun a b => a + 1 * b) (List.replicate 7 (0 : ℚ))
            (List.replicate 7 (1 : ℚ)) := by
  decide

/-- C9 amended: with a non-empty receiver Data of the other's length,
AddGamma returns nil and the caller sees every entry grow by gamma times
the other's entry; with an empty receiver Data the caller's Data always
stays empty, whatever AddGamma returns, because the value receiver's fresh
allocation is invisible to the caller. -/
theorem addGamma_caller_visible (data other : List ℚ) (gamma : ℚ) :
    (AddGammaCallerData [] other gamma).1 = []
    ∧ (data ≠ [] → data.length = other.length →
        (AddGammaCallerData data other gamma).2 = false
        ∧ ∀ j, j < data.length →
            (AddGammaCallerData data other gamma).1.getD j 0
              = data.getD j 0 + gamma * other.getD j 0) := by
  constructor
  · simp only [AddGammaCallerData]
    split <;> first | rfl | (split <;> rfl)
  · intro hne hlen
    have h0 : ¬(data.length = 0) := by
      simpa [List.length_eq_zero] using hne
    have hres : AddGammaCallerData data other gamma
        = (List.zipWith (fun a b => a + gamma * b) data other, false) := by
      simp only [AddGammaCallerData, if_neg h0, if_pos hlen]
    rw [hres]
    refine ⟨rfl, fun j hj => ?_⟩
    have h2 : j < other.length := hlen ▸ hj
    have hlenz : j < (List.zipWith (fun a b => a + gamma * b) data other).length := by
      simp [List.length_zipWith]
      omega
    rw [List.getD_eq_getElem _ _ hlenz, List.getD_eq_getElem data _ hj,
      List.getD_eq_getElem other _ h2]
    exact List.getElem_zipWith ..

/-- C9 witness: a two-entry receiver observes both increments. -/
theorem addGamma_caller_visible_witness :
    (AddGammaCallerData [1, 2] [10, 20] (1/2)).2 = false
    ∧ (AddGammaCallerData [1, 2] [10, 20] (1/2)).1.getD 0 0 = 6
    ∧ (AddGammaCallerData [1, 2] [10, 20] (1/2)).1.getD 1 0 = 12 := by
  have h := (addGamma_caller_visible [1, 2] [10, 20] (1/2)).2
    (by decide) (by decide)
  refine ⟨h.1, ?_, ?_⟩
  · rw [h.2 0 (by decide)]
    norm_num
  · rw [h.2 1 (by decide)]
    norm_num

/-! ### Skyline pods (frag.go lines 382-409) -/

/-- The comparison used by the stable sort in GetSkylinePods, frag.go lines
389-397, read as the non-strict relation a stable sort realizes: by CPU
millis ascending, ties by GPU millis ascending. -/
def podResLe (a b : PodResource) : Prop :=
  a.MilliCpu < b.MilliCpu ∨ (a.MilliCpu = b.MilliCpu ∧ a.MilliGpu ≤ b.MilliGpu)

instance : DecidableRel podResLe := fun a b => by
  unfold podResLe
  infer_instance

/-- The sweep body of GetSkylinePods, frag.go lines 398-403: append the pod
iff the list is empty or the pod has strictly more CPU and strictly less
GPU than the last accepted pod. -/
def skylineStep (acc : List PodResource) (p : PodResource) : List PodResource :=
  match acc.getLast? with
  | none => acc ++ [p]
  | some last =>
    if last.MilliCpu < p.MilliCpu ∧ p.MilliGpu < last.MilliGpu then acc ++ [p] else acc

/-- GetSkylinePods of frag.go lines 382-409 on the extracted pod resources:
stable sort by (milliCpu asc, milliGpu asc), then sweep.  (The extraction
GetPodResource from the opaque pod records is outside the embedding.) -/
def GetSkylinePods (pods : List PodResource) : List PodResource :=
  (List.insertionSort podResLe pods).foldl skylineStep []

/-- The spec's dominance order on pod shapes: a dominates b when a requests
strictly more CPU and strictly less GPU than b. -/
def DominatesMoreCpuLessGpu (a b : PodResource) : Prop :=
  b.MilliCpu < a.MilliCpu ∧ a.MilliGpu < b.MilliGpu

instance (a b : PodResource) : Decidable (DominatesMoreCpuLessGpu a b) := by
  unfold DominatesMoreCpuLessGpu
  infer_instance

/-- The chain relation along the sweep output. -/
def skyR (a b : PodResource) : Prop :=
  a.MilliCpu < b.MilliCpu ∧ b.MilliGpu < a.MilliGpu

instance : IsTrans PodResource skyR :=
  ⟨fun _ _ _ hab hbc => ⟨lt_trans hab.1 hbc.1, lt_trans hbc.2 hab.2⟩⟩

lemma foldl_preserves {α β : Type} (P : β → Prop) (f : β → α → β)
    (hstep : ∀ b a, P b → P (f b a)) :
    ∀ (l : List α) (b), P b → P (l.foldl f b) := by
  intro l
  induction l with
  | nil => exact fun b hb => hb
  | cons a rest ih => exact fun b hb => ih (f b a) (hstep b a hb)

lemma skylineStep_chain (acc : List PodResource) (p : PodResource)
    (h : List.Chain' skyR acc) : List.Chain' skyR (skylineStep acc p) := by
  cases hlast : acc.getLast? with
  | none =>
    have hstep : skylineStep acc p = acc ++ [p] := by
      unfold skylineStep
      rw [hlast]
    rw [hstep, List.getLast?_eq_none_iff.1 hlast]
    exact List.chain'_singleton p
  | some last =>
    have hstep : skylineStep acc p
        = if last.MilliCpu < p.MilliCpu ∧ p.MilliGpu < last.MilliGpu
          then acc ++ [p] else acc := by
      unfold skylineStep
      rw [hlast]
    rw [hstep]
    split_ifs with hcond
    · refine List.Chain'.append h (List.chain'_singleton p) ?_
      intro x hx y hy
      simp only [List.head?_cons, Option.mem_def, Option.some.injEq] at hy
      rw [hlast] at hx
      simp only [Option.mem_def, Option.some.injEq] at hx
      subst hx
      subst hy
      exact hcond
    · exact h

/-- C6 counterexample: a workload of two pods in which both survive the
sweep, while the later pod has strictly more CPU and strictly less GPU than
the earlier one, i.e. dominates it under the spec's declared skyline order
"strictly more CPU and strictly less GPU". -/
theorem skyline_dominance_counterexample :
    ({ MilliCpu := 1000, Memory := 0, MilliGpu := 800, GpuNumber := 1, GpuType := "" }
        : PodResource) ∈ GetSkylinePods
          [{ MilliCpu := 1000, Memory := 0, MilliGpu := 800, GpuNumber := 1, GpuType := "" },
           { MilliCpu := 2000, Memory := 0, MilliGpu := 300, GpuNumber := 1, GpuType := "" }]
    ∧ ({ MilliCpu := 2000, Memory := 0, MilliGpu := 300, GpuNumber := 1, GpuType := "" }
        : PodResource) ∈ GetSkylinePods
          [{ MilliCpu := 1000, Memory := 0, MilliGpu := 800, GpuNumber := 1, GpuType := "" },
           { MilliCpu := 2000, Memory := 0, MilliGpu := 300, GpuNumber := 1, GpuType := "" }]
    ∧ DominatesMoreCpuLessGpu
        { MilliCpu := 2000, Memory := 0, MilliGpu := 300, GpuNumber := 1, GpuType := "" }
        { MilliCpu := 1000, Memory := 0, MilliGpu := 800, GpuNumber := 1, GpuType := "" } := by
  decide

/-- C6 amended: along the returned skyline, CPU strictly increases and GPU
strictly decreases, so any two distinct skyline pods are incomparable
componentwise: neither requests at least as much CPU and at least as much
GPU as the other.  (Under the literal order "strictly more CPU and strictly
less GPU" the skyline is a chain, not an antichain.) -/
theorem getSkylinePods_pairwise (pods : List PodResource) :
    (GetSkylinePods pods).Pairwise (fun a b =>
      (a.MilliCpu < b.MilliCpu ∧ b.MilliGpu < a.MilliGpu)
      ∧ ¬(a.MilliCpu ≤ b.MilliCpu ∧ a.MilliGpu ≤ b.MilliGpu)
      ∧ ¬(b.MilliCpu ≤ a.MilliCpu ∧ b.MilliGpu ≤ a.MilliGpu)) := by
  have hchain : List.Chain' skyR (GetSkylinePods pods) :=
    foldl_preserves (List.Chain' skyR) skylineStep skylineStep_chain _ []
      List.chain'_nil
  have hpair : (GetSkylinePods pods).Pairwise skyR :=
    List.chain'_iff_pairwise.1 hchain
  refine hpair.imp ?_
  intro a b hab
  refine ⟨hab, ?_, ?_⟩
  · intro hdom
    exact absurd hdom.2 (not_le.2 hab.2)
  · intro hdom
    exact absurd hdom.1 (not_le.2 hab.1)

/-! ### Greed queue (greed.go) -/

/-- A pod as the greed queue sees it: the bound node name (empty when
unbound) and the summed resource requests returned by
PodRequestsAndLimits, as name-quantity pairs. -/
structure GreedPod where
  nodeName : String
  requests : List (String × ℚ)
deriving DecidableEq, Repr

/-- The cluster-level totals built by NewGreedQueue, greed.go lines 18-40:
exactly the CPU and memory dimensions. -/
structure ClusterTotalResource where
  cpu : ℚ
  memory : ℚ
deriving DecidableEq, Repr

def cpuResourceName : String := "cpu"

def memoryResourceName : String := "memory"

/-- Looking a resource up in a request map; a missing key reads as the zero
quantity, as in Go. -/
def lookupQuantity (reqs : List (String × ℚ)) (name : String) : ℚ :=
  match reqs with
  | [] => 0
  | (k, v) :: rest => if k = name then v else lookupQuantity rest name

/-- Share of greed.go lines 78-91. -/
def Share (alloc total : ℚ) : ℚ :=
  if total = 0 then (if alloc = 0 then 0 else 1) else alloc / total

/-- calculatePodShare of greed.go lines 58-75: zero for an empty request
map, else the maximum over the cluster dimensions (CPU and memory) of the
request's share of the total, starting from zero. -/
def calculatePodShare (t : ClusterTotalResource) (pod : GreedPod) : ℚ :=
  if pod.requests = [] then 0
  else
    max 0 (max (Share (lookupQuantity pod.requests cpuResourceName) t.cpu)
      (Share (lookupQuantity pod.requests memoryResourceName) t.memory))

/-- GreedQueue.Less of greed.go lines 44-56. -/
def greedLess (t : ClusterTotalResource) (p q : GreedPod) : Bool :=
  if ¬p.nodeName = "" then true
  else if ¬q.nodeName = "" then false
  else decide (calculatePodShare t q < calculatePodShare t p)

/-- C7 counterexample: for two distinct pods that are both bound, Less
returns true in both argument orders, so it is not asymmetric and does not
induce a strict total order on the queue. -/
theorem greedLess_not_asymmetric_counterexample :
    greedLess ⟨0, 0⟩ ⟨"node1", []⟩ ⟨"node2", []⟩ = true
    ∧ greedLess ⟨0, 0⟩ ⟨"node2", []⟩ ⟨"node1", []⟩ = true
    ∧ (⟨"node1", []⟩ : GreedPod) ≠ ⟨"node2", []⟩ := by
  decide

/-- C7 amended: Less returns true whenever the first pod is bound
(regardless of the second, hence also for two bound pods, which is why it
is not a strict order), false when only the second pod is bound, and for
two unbound pods it compares dominant shares strictly descending, the
dominant share being the maximum over the cluster's CPU and memory
dimensions (floored at zero) of request over capacity. -/
theorem greedLess_spec (t : ClusterTotalResource) (p q : GreedPod) :
    (¬p.nodeName = "" → greedLess t p q = true)
    ∧ (p.nodeName = "" → ¬q.nodeName = "" → greedLess t p q = false)
    ∧ (p.nodeName = "" → q.nodeName = "" →
        (greedLess t p q = true ↔ calculatePodShare t q < calculatePodShare t p)) := by
  refine ⟨fun hp => ?_, fun hp hq => ?_, fun hp hq => ?_⟩
  · simp [greedLess, hp]
  · simp [greedLess, hp, hq]
  · simp [greedLess, hp, hq]

/-- C7 witness: a bound pod sorts before an unbound one in both argument
orders, and two unbound pods compare by strict dominant share. -/
theorem greedLess_spec_witness :
    greedLess ⟨8, 16⟩ ⟨"node1", []⟩ ⟨"", [("cpu", 4)]⟩ = true
    ∧ greedLess ⟨8, 16⟩ ⟨"", [("cpu", 4)]⟩ ⟨"node1", []⟩ = false
    ∧ (greedLess ⟨8, 16⟩ ⟨"", [("cpu", 4)]⟩ ⟨"", [("cpu", 2)]⟩ = true ↔
        calculatePodShare ⟨8, 16⟩ ⟨"", [("cpu", 2)]⟩
          < calculatePodShare ⟨8, 16⟩ ⟨"", [("cpu", 4)]⟩) := by
  refine ⟨?_, ?_, ?_⟩
  · exact (greedLess_spec ⟨8, 16⟩ ⟨"node1", []⟩ ⟨"", [("cpu", 4)]⟩).1 (by decide)
  · exact (greedLess_spec ⟨8, 16⟩ ⟨"", [("cpu", 4)]⟩ ⟨"node1", []⟩).2.1 (by decide) (by decide)
  · exact (greedLess_spec ⟨8, 16⟩ ⟨"", [("cpu", 4)]⟩ ⟨"", [("cpu", 2)]⟩).2.2 rfl rfl

/-! ### Bellman fragmentation estimator (frag.go lines 124-140, 231-283, 427-434) -/

/-- AddRatio of frag.go lines 54-64 as seen by a caller that ignores the
returned error: frequencies outside [0,1] and unknown categories leave the
data untouched. -/
def addRatioApplied (data : List ℚ) (fragType : String) (freq : ℚ) : List ℚ :=
  if freq < 0 ∨ 1 < freq then data
  else
    match fragRatioIdx fragType with
    | none => data
    | some i => data.set i (data.getD i 0 + freq)

/-- NodeGpuFragRatio of frag.go lines 124-140. -/
def NodeGpuFragRatio (nodeRes : NodeResource) (typicalPods : TargetPodList) : List ℚ :=
  typicalPods.foldl
    (fun data pod =>
      if pod.Percentage < 0 ∨ 1 < pod.Percentage then data
      else addRatioApplied data (GetNodePodFrag nodeRes pod.TargetPodResource) pod.Percentage)
    (List.replicate 7 0)

/-- FragRatioSumExceptQ3 of frag.go lines 427-434: sum of all category
entries except index 2 (Q3Satisfied); the Go loop over the seven fixed
category indices is unrolled. -/
def FragRatioSumExceptQ3 (data : List ℚ) : ℚ :=
  data.getD 0 0 + data.getD 1 0 + data.getD 3 0 + data.getD 4 0
    + data.getD 5 0 + data.getD 6 0

/-- The lowest-indexed-GPUs selection inside Sub: walk the remaining-millis
list, deduct the pod's share from the first entries that can hold it, and
fail when fewer than the requested number of GPUs satisfy it. -/
def subGpuList (milliGpu : Int) : Int → List Int → Option (List Int)
  | need, [] => if need ≤ 0 then some [] else none
  | need, g :: rest =>
    if need ≤ 0 then some (g :: rest)
    else if milliGpu ≤ g then
      (subGpuList milliGpu (need - 1) rest).map (fun r => (g - milliGpu) :: r)
    else (subGpuList milliGpu need rest).map (fun r => g :: r)

/-- Modelled from the spec: Sub of the resource model (section 4.1, absent
from src/): deduct the pod from the node, failing on a GPU-type mismatch,
on any component going negative, or when fewer than pod.gpuNumber entries
of milliGpuLeftList can satisfy pod.milliGpu; GPU selection picks the
lowest-indexed satisfying GPUs.  Failure is modelled as none. -/
def Sub (n : NodeResource) (p : PodResource) : Option NodeResource :=
  if p.GpuType ≠ "" ∧ p.GpuType ≠ n.GpuType then none
  else if n.MilliCpuLeft < p.MilliCpu ∨ n.MemoryLeft < p.Memory then none
  else
    match subGpuList p.MilliGpu p.GpuNumber n.MilliGpuLeftList with
    | none => none
    | some newList =>
      some { n with MilliCpuLeft := n.MilliCpuLeft - p.MilliCpu,
                    MemoryLeft := n.MemoryLeft - p.Memory,
                    MilliGpuLeftList := newList }

/-- Modelled from the spec: the memoization key produced by
nodeRes.Flatten (design note, section 9): a canonicalized node signature of
CPU left, memory left, sorted per-GPU remaining millis and GPU type. -/
abbrev NodeKey := Int × Int × List Int × String

def flattenKey (n : NodeResource) : NodeKey :=
  (n.MilliCpuLeft, n.MemoryLeft,
    List.insertionSort (fun a b : Int => a ≤ b) n.MilliGpuLeftList, n.GpuType)

/-- Lookup in the memoization map, modelled as an association list. -/
def dpLookup (dp : List (NodeKey × ℚ)) (k : NodeKey) : Option ℚ :=
  match dp with
  | [] => none
  | (k', v) :: rest => if k' = k then some v else dpLookup rest k

/-- The discount of frag.go line 252. -/
def bellmanGamma : ℚ := 1

/-- The full-fragmentation threshold of frag.go line 253. -/
def bellmanDelta : ℚ := 999 / 1000

/-- NodeGpuFragBellman of frag.go lines 231-283, with the unbounded Go
recursion made structural on a fuel argument (fuel zero returns zero) and
the shared sync.Map threaded through as an association list: first the
cache lookup, then the zero-total and small-expected-value returns (which
do not store), then either the recursive expectation over the typical pods
or the full-fragmentation early cutoff (both of which store). -/
def NodeGpuFragBellman (fuel : Nat) :
    NodeResource → TargetPodList → List (NodeKey × ℚ) → ℚ → ℚ × List (NodeKey × ℚ) :=
  match fuel with
  | 0 => fun _ _ dp _ => (0, dp)
  | fuel + 1 => fun n pods dp cumProb =>
    match dpLookup dp (flattenKey n) with
    | some v => (v, dp)
    | none =>
      let total : ℚ := (GetGpuMilliLeftTotal n : ℚ)
      if total = 0 then (0, dp)
      else if total * cumProb < 1 then (0, dp)
      else if FragRatioSumExceptQ3 (NodeGpuFragRatio n pods) < bellmanDelta then
        let res := pods.foldl
          (fun acc pod =>
            match Sub n pod.TargetPodResource with
            | none => (acc.1 + total * pod.Percentage, acc.2)
            | some newNode =>
              let r := NodeGpuFragBellman fuel newNode pods acc.2 (cumProb * pod.Percentage)
              (acc.1 + r.1 * pod.Percentage, r.2))
          ((0 : ℚ), dp)
        (res.1 * bellmanGamma, (flattenKey n, res.1 * bellmanGamma) :: res.2)
      else (total, (flattenKey n, total) :: dp)

/-- A one-GPU node whose GPU is half used. -/
def nodeBellman : NodeResource :=
  { NodeName := "nb", MilliCpuLeft := 1000, MemoryLeft := 0,
    MilliGpuLeftList := [500], GpuType := "V100" }

/-- A pod requiring a GPU type the Bellman node does not have. -/
def podBellman : PodResource :=
  { MilliCpu := 0, Memory := 0, MilliGpu := 500, GpuNumber := 1, GpuType := "A100" }

/-- C3 counterexample: on a node whose frag ratio over the typical pods is
1 (at least 0.999), with cumulative probability 1/1000, the claimed first
cutoff demands the total remaining GPU millis (500), but the code tests
gpuMilliLeftTotal * cumProb < 1 first and returns 0. -/
lemma bellman_frag_list_eval :
    NodeGpuFragRatio nodeBellman [⟨podBellman, 1⟩] = [0, 0, 0, 0, 0, 0, 1] := by
  have hfrag : GetNodePodFrag nodeBellman podBellman = NoAccess := by decide
  have hidx : fragRatioIdx NoAccess = some 6 := by decide
  norm_num [NodeGpuFragRatio, addRatioApplied, hfrag, hidx, List.replicate, List.set,
    List.getD]

lemma bellman_ratio_eval :
    bellmanDelta ≤ FragRatioSumExceptQ3 (NodeGpuFragRatio nodeBellman [⟨podBellman, 1⟩]) := by
  rw [bellman_frag_list_eval]
  norm_num [FragRatioSumExceptQ3, bellmanDelta, List.getD]

lemma bellman_total_eval : GetGpuMilliLeftTotal nodeBellman = 500 := by decide

theorem bellman_cutoff_counterexample :
    bellmanDelta ≤ FragRatioSumExceptQ3 (NodeGpuFragRatio nodeBellman [⟨podBellman, 1⟩])
    ∧ (NodeGpuFragBellman 5 nodeBellman [⟨podBellman, 1⟩] [] (1 / 1000)).1
        ≠ (GetGpuMilliLeftTotal nodeBellman : ℚ) := by
  refine ⟨bellman_ratio_eval, ?_⟩
  have hdp : dpLookup [] (flattenKey nodeBellman) = none := rfl
  have htotal : ¬((GetGpuMilliLeftTotal nodeBellman : ℚ) = 0) := by
    norm_num [bellman_total_eval]
  have hlt : (GetGpuMilliLeftTotal nodeBellman : ℚ) * (1 / 1000) < 1 := by
    norm_num [bellman_total_eval]
  show (NodeGpuFragBellman (4 + 1) nodeBellman [⟨podBellman, 1⟩] [] (1 / 1000)).1
      ≠ (GetGpuMilliLeftTotal nodeBellman : ℚ)
  simp only [NodeGpuFragBellman, hdp]
  rw [if_neg htotal, if_pos hlt]
  norm_num [bellman_total_eval]

/-- C3 amended: provided the memoization map has no entry for the node's
key, NodeGpuFragBellman returns 0 whenever gpuMilliLeftTotal * cumProb < 1
(including a zero GPU total), and returns gpuMilliLeftTotal whenever
gpuMilliLeftTotal * cumProb is at least 1 and FragRatioSumExceptQ3 is at
least 0.999; a cached entry is returned as-is and the cumProb cutoff is
tested before the frag-ratio cutoff. -/
theorem bellman_cutoffs (fuel : Nat) (n : NodeResource) (pods : TargetPodList)
    (dp : List (NodeKey × ℚ)) (cumProb : ℚ)
    (hdp : dpLookup dp (flattenKey n) = none) :
    ((GetGpuMilliLeftTotal n : ℚ) * cumProb < 1 →
      (NodeGpuFragBellman (fuel + 1) n pods dp cumProb).1 = 0)
    ∧ (1 ≤ (GetGpuMilliLeftTotal n : ℚ) * cumProb →
        bellmanDelta ≤ FragRatioSumExceptQ3 (NodeGpuFragRatio n pods) →
        (NodeGpuFragBellman (fuel + 1) n pods dp cumProb).1
          = (GetGpuMilliLeftTotal n : ℚ)) := by
  constructor
  · intro hlt
    simp only [NodeGpuFragBellman, hdp]
    by_cases htotal : (GetGpuMilliLeftTotal n : ℚ) = 0
    · rw [if_pos htotal]
    · rw [if_neg htotal, if_pos hlt]
  · intro h1 hratio
    have htotal : ¬((GetGpuMilliLeftTotal n : ℚ) = 0) := by
      intro h
      rw [h, zero_mul] at h1
      exact absurd h1 (by norm_num)
    have hnlt : ¬((GetGpuMilliLeftTotal n : ℚ) * cumProb < 1) := not_lt.2 h1
    have hnratio : ¬(FragRatioSumExceptQ3 (NodeGpuFragRatio n pods) < bellmanDelta) :=
      not_lt.2 hratio
    simp only [NodeGpuFragBellman, hdp]
    rw [if_neg htotal, if_neg hnlt, if_neg hnratio]

/-- C3 witness for the amended cutoffs: on the concrete Bellman node the
small-expected-value cutoff returns 0 at cumProb 1/1000, and the
full-fragmentation cutoff returns the total 500 at cumProb 1. -/
theorem bellman_cutoffs_witness :
    (NodeGpuFragBellman 5 nodeBellman [⟨podBellman, 1⟩] [] (1 / 1000)).1 = 0
    ∧ (NodeGpuFragBellman 5 nodeBellman [⟨podBellman, 1⟩] [] 1).1
        = (GetGpuMilliLeftTotal nodeBellman : ℚ) := by
  constructor
  · exact (bellman_cutoffs 4 nodeBellman [⟨podBellman, 1⟩] [] (1 / 1000)
      rfl).1 (by norm_num [bellman_total_eval])
  · exact (bellman_cutoffs 4 nodeBellman [⟨podBellman, 1⟩] [] 1
      rfl).2 (by norm_num [bellman_total_eval]) bellman_ratio_eval

/-! ### Workload distiller (frag.go lines 285-380 and 436-445) -/

/-- The typicalPodsConfig record of the external configuration
(section 6). -/
structure TypicalPodsConfig where
  IsInvolvedCpuPods : Bool
  GpuResWeight : ℚ
  PodPopularityThreshold : Int
  PodIncreaseStep : Int
deriving DecidableEq, Repr

/-- Modelled from the spec: the default popularity threshold constant of
pkg/type (absent from src/); the spec leaves the value to configuration,
and 60 percent is used here as the documented default. -/
def DefaultTypicalPodPopularityThreshold : Int := 60

/-- Modelled from the spec: the default increase step of pkg/type (absent
from src/); section 4.2 documents the default step as 1. -/
def DefaultTypicalPodIncreaseStep : Int := 1

/-- gpushareutils.MILLI: one whole GPU in thousandths. -/
def MILLI : Int := 1000

/-- The per-pod weighted count of frag.go lines 298-303. -/
def weightedCnt (config : TypicalPodsConfig) (p : PodResource) : ℚ :=
  if 0 < config.GpuResWeight ∧ p.MilliGpu = MILLI then
    1 + (p.GpuNumber : ℚ) * config.GpuResWeight
  else 1

/-- The inclusion filter of frag.go lines 294-296: CPU-only pods are
skipped unless the config involves them. -/
def includedPod (config : TypicalPodsConfig) (p : PodResource) : Bool :=
  config.IsInvolvedCpuPods || decide (p.GpuNumber ≠ 0)

/-- Adding a weighted count into the pod-shape map, modelled as an
association list keyed by the pod resource. -/
def addCnt (m : List (PodResource × ℚ)) (k : PodResource) (w : ℚ) : List (PodResource × ℚ) :=
  match m with
  | [] => [(k, w)]
  | kv :: rest => if kv.1 = k then (kv.1, kv.2 + w) :: rest else kv :: addCnt rest k w

/-- The aggregation loop of frag.go lines 292-329 building
tgtPodResCntMap (the per-GPU-count logging map is omitted: it only feeds
log lines). -/
def buildCntMap (config : TypicalPodsConfig) (pods : List PodResource) :
    List (PodResource × ℚ) :=
  pods.foldl
    (fun m p => if includedPod config p then addCnt m p (weightedCnt config p) else m) []

/-- The total accumulated alongside the map, frag.go line 309. -/
def totalWeight (config : TypicalPodsConfig) (pods : List PodResource) : ℚ :=
  pods.foldl
    (fun t p => if includedPod config p then t + weightedCnt config p else t) 0

/-- Modelled from the spec: the comparator of simontype.TargetPodList
(absent from src/), read off section 4.2: the result is sorted by
descending count, so the sort realizes the relation "count at least the
other's". -/
def podCntDescLe (a b : TargetPod) : Prop :=
  b.Percentage ≤ a.Percentage

instance : DecidableRel podCntDescLe := fun a b => by
  unfold podCntDescLe
  infer_instance

instance : IsTotal TargetPod podCntDescLe :=
  ⟨fun a b => le_total b.Percentage a.Percentage⟩

instance : IsTrans TargetPod podCntDescLe :=
  ⟨fun _ _ _ hab hbc => le_trans hbc hab⟩

/-- The strictly-descending-count relation, used to compare sorted
outputs. -/
def podCntDescLt (a b : TargetPod) : Prop :=
  b.Percentage < a.Percentage

instance : IsTrans TargetPod podCntDescLt :=
  ⟨fun _ _ _ hab hbc => lt_trans hbc hab⟩

instance : IsAntisymm TargetPod podCntDescLt :=
  ⟨fun _ _ h1 h2 => absurd (lt_trans h1 h2) (lt_irrefl _)⟩

/-- SortTargetPodInDecreasingCount of frag.go lines 436-445.  The Go code
ranges over the map (an enumeration whose order Go does not specify,
modelled here as the explicit association-list order) and sorts with
sort.Sort(sort.Reverse(pl)), modelled as a comparison sort realizing the
descending-count comparator. -/
def SortTargetPodInDecreasingCount (m : List (PodResource × ℚ)) : TargetPodList :=
  List.insertionSort podCntDescLe (m.map (fun kv => ⟨kv.1, kv.2⟩))

/-- The effective popularity threshold, frag.go lines 338-342. -/
def effectiveThreshold (c : TypicalPodsConfig) : Int :=
  if 0 < c.PodPopularityThreshold then c.PodPopularityThreshold
  else DefaultTypicalPodPopularityThreshold

/-- The effective increase step, frag.go lines 346-350. -/
def effectiveStep (c : TypicalPodsConfig) : Int :=
  if 0 < c.PodIncreaseStep then c.PodIncreaseStep else DefaultTypicalPodIncreaseStep

/-- The inner loop of frag.go lines 351-359: while i is below both the
allowance podResNum and the list length, add the i-th count to the
cumulative sum, normalize the i-th percentage by the total, and advance. -/
def innerLoop (total : ℚ) (podResNum : Int) (i : Nat) (cum : ℚ) (l : TargetPodList) :
    Nat × ℚ × TargetPodList :=
  if h : (i : Int) < podResNum ∧ i < l.length then
    innerLoop total podResNum (i + 1) (cum + (l.get ⟨i, h.2⟩).Percentage)
      (l.set i { l.get ⟨i, h.2⟩ with
        Percentage := (l.get ⟨i, h.2⟩).Percentage / total })
  else (i, cum, l)
termination_by l.length - i
decreasing_by
  simp only [List.length_set]
  omega

/-- The outer selection loop of frag.go lines 345-360, with the unbounded
Go loop made structural on a fuel argument: while the cumulative count is
below the expected count, raise the allowance by the step and run the inner
loop; exhausted fuel is none. -/
def outerLoop (step : Int) (total expected : ℚ) :
    Nat → Int → Nat → ℚ → TargetPodList → Option (Nat × ℚ × TargetPodList)
  | fuel, podResNum, i, cum, l =>
    if cum < expected then
      match fuel with
      | 0 => none
      | fuel + 1 =>
        let r := innerLoop total (podResNum + step) i cum l
        outerLoop step total expected fuel (podResNum + step) r.1 r.2.1 r.2.2
    else some (i, cum, l)

/-- GetTypicalPods of frag.go lines 285-380 on the extracted pod resources:
aggregate weighted counts, sort by descending count, run the selection
loop, then either return the whole list or chop at i and renormalize by
cum/total.  The selection loop gets fuel length+1, which suffices whenever
the loop terminates in Go (see the termination theorem). -/
def GetTypicalPods (config : TypicalPodsConfig) (pods : List PodResource) :
    Option TargetPodList :=
  let m := buildCntMap config pods
  let total := totalWeight config pods
  let sorted := SortTargetPodInDecreasingCount m
  let expected := (effectiveThreshold config : ℚ) * total / 100
  match outerLoop (effectiveStep config) total expected (sorted.length + 1) 0 0 0 sorted with
  | none => none
  | some (i, cum, l) =>
    if l.length ≤ i then some l
    else some ((l.take i).map (fun tp => { tp with Percentage := tp.Percentage / (cum / total) }))

/-- A CPU-only pod shape used in the distiller examples. -/
def distPodA : PodResource :=
  { MilliCpu := 1000, Memory := 0, MilliGpu := 0, GpuNumber := 0, GpuType := "" }

/-- A second, distinct CPU-only pod shape. -/
def distPodB : PodResource :=
  { MilliCpu := 2000, Memory := 0, MilliGpu := 0, GpuNumber := 0, GpuType := "" }

/-- C4 counterexample: two enumerations of the same two-entry
PodResource-to-count map whose counts tie produce different
TargetPodLists, so the sorted order is not a function of the map alone:
with Go's unspecified map iteration order, two identical runs may differ. -/
theorem sortTarget_tie_counterexample :
    List.Perm [(distPodA, (5 : ℚ)), (distPodB, 5)] [(distPodB, (5 : ℚ)), (distPodA, 5)]
    ∧ SortTargetPodInDecreasingCount [(distPodA, 5), (distPodB, 5)]
        ≠ SortTargetPodInDecreasingCount [(distPodB, 5), (distPodA, 5)] := by
  constructor
  · exact List.Perm.swap (distPodB, 5) (distPodA, 5) []
  · intro h
    have h5 : podCntDescLe ⟨distPodA, 5⟩ ⟨distPodB, 5⟩ := le_refl (5 : ℚ)
    have h5' : podCntDescLe ⟨distPodB, 5⟩ ⟨distPodA, 5⟩ := le_refl (5 : ℚ)
    have e1 : SortTargetPodInDecreasingCount [(distPodA, 5), (distPodB, 5)]
        = [⟨distPodA, 5⟩, ⟨distPodB, 5⟩] := by
      simp [SortTargetPodInDecreasingCount, List.insertionSort, List.orderedInsert,
        if_pos h5]
    have e2 : SortTargetPodInDecreasingCount [(distPodB, 5), (distPodA, 5)]
        = [⟨distPodB, 5⟩, ⟨distPodA, 5⟩] := by
      simp [SortTargetPodInDecreasingCount, List.insertionSort, List.orderedInsert,
        if_pos h5']
    rw [e1, e2] at h
    have : distPodA = distPodB := congrArg TargetPod.TargetPodResource
      (List.head_eq_of_cons_eq h)
    simp [distPodA, distPodB, PodResource.mk.injEq] at this

/-- C4 amended: the distiller order is deterministic up to count ties: when
all counts in the map are pairwise distinct, every enumeration of the map
sorts to the same TargetPodList; with tied counts the order depends on the
enumeration (Go's randomized map iteration), as the counterexample
shows. -/
theorem sortTarget_deterministic_of_distinct (m1 m2 : List (PodResource × ℚ))
    (hperm : m1.Perm m2)
    (hdist : (m1.map Prod.snd).Pairwise (fun a b => a ≠ b)) :
    SortTargetPodInDecreasingCount m1 = SortTargetPodInDecreasingCount m2 := by
  have hp1 : (SortTargetPodInDecreasingCount m1).Perm
      (m1.map (fun kv => (⟨kv.1, kv.2⟩ : TargetPod))) :=
    List.perm_insertionSort podCntDescLe _
  have hp2 : (SortTargetPodInDecreasingCount m2).Perm
      (m2.map (fun kv => (⟨kv.1, kv.2⟩ : TargetPod))) :=
    List.perm_insertionSort podCntDescLe _
  have hptot : (SortTargetPodInDecreasingCount m1).Perm
      (SortTargetPodInDecreasingCount m2) :=
    hp1.trans ((hperm.map _).trans hp2.symm)
  have hsym : ∀ {a b : TargetPod}, a.Percentage ≠ b.Percentage →
      b.Percentage ≠ a.Percentage := fun h => h.symm
  have hne1 : (m1.map (fun kv => (⟨kv.1, kv.2⟩ : TargetPod))).Pairwise
      (fun a b => a.Percentage ≠ b.Percentage) := by
    rw [List.pairwise_map]
    have := (List.pairwise_map (l := m1) (f := Prod.snd)
      (R := fun a b : ℚ => a ≠ b)).1 hdist
    exact this
  have hnes1 : (SortTargetPodInDecreasingCount m1).Pairwise
      (fun a b => a.Percentage ≠ b.Percentage) :=
    (hp1.pairwise_iff fun h => hsym h).2 hne1
  have hnes2 : (SortTargetPodInDecreasingCount m2).Pairwise
      (fun a b => a.Percentage ≠ b.Percentage) :=
    (hptot.pairwise_iff fun h => hsym h).1 hnes1
  have hs1 : (SortTargetPodInDecreasingCount m1).Sorted podCntDescLt := by
    have hle : (SortTargetPodInDecreasingCount m1).Sorted podCntDescLe :=
      List.sorted_insertionSort podCntDescLe _
    exact (hle.and hnes1).imp fun h => lt_of_le_of_ne h.1 (hsym h.2)
  have hs2 : (SortTargetPodInDecreasingCount m2).Sorted podCntDescLt := by
    have hle : (SortTargetPodInDecreasingCount m2).Sorted podCntDescLe :=
      List.sorted_insertionSort podCntDescLe _
    exact (hle.and hnes2).imp fun h => lt_of_le_of_ne h.1 (hsym h.2)
  exact List.eq_of_perm_of_sorted hptot hs1 hs2

/-- C4 witness: with distinct counts 5 and 3, the two enumerations of the
map sort identically. -/
theorem sortTarget_deterministic_witness :
    SortTargetPodInDecreasingCount [(distPodA, 5), (distPodB, 3)]
      = SortTargetPodInDecreasingCount [(distPodB, 3), (distPodA, 5)] :=
  sortTarget_deterministic_of_distinct _ _
    (List.Perm.swap (distPodB, 3) (distPodA, 5) [])
    (by norm_num [List.pairwise_cons])

lemma sum_addCnt (k : PodResource) (w : ℚ) :
    ∀ (m : List (PodResource × ℚ)),
      ((addCnt m k w).map Prod.snd).sum = (m.map Prod.snd).sum + w := by
  intro m
  induction m with
  | nil => simp [addCnt]
  | cons kv rest ih =>
    by_cases hk : kv.1 = k
    · simp only [addCnt, if_pos hk, List.map_cons, List.sum_cons]
      ring
    · simp only [addCnt, if_neg hk, List.map_cons, List.sum_cons, ih]
      ring

lemma addCnt_vals (k : PodResource) (w : ℚ) (hw : 0 ≤ w) :
    ∀ (m : List (PodResource × ℚ)), (∀ kv ∈ m, 0 ≤ kv.2) →
      ∀ kv ∈ addCnt m k w, 0 ≤ kv.2 := by
  intro m
  induction m with
  | nil =>
    intro _ kv hkv
    simp only [addCnt, List.mem_singleton] at hkv
    rw [hkv]
    exact hw
  | cons kv0 rest ih =>
    intro hm kv hkv
    by_cases hk : kv0.1 = k
    · simp only [addCnt, if_pos hk, List.mem_cons] at hkv
      rcases hkv with h | h
      · rw [h]
        exact add_nonneg (hm kv0 (by simp)) hw
      · exact hm kv (by simp [h])
    · simp only [addCnt, if_neg hk, List.mem_cons] at hkv
      rcases hkv with h | h
      · rw [h]
        exact hm kv0 (by simp)
      · exact ih (fun x hx => hm x (by simp [hx])) kv h

lemma weightedCnt_nonneg (config : TypicalPodsConfig) (p : PodResource)
    (hg : 0 ≤ p.GpuNumber) : 0 ≤ weightedCnt config p := by
  unfold weightedCnt
  split_ifs with h
  · exact add_nonneg zero_le_one
      (mul_nonneg (by exact_mod_cast hg) (le_of_lt h.1))
  · exact zero_le_one

lemma totalWeight_foldl_eq (config : TypicalPodsConfig) :
    ∀ (pods : List PodResource) (m : List (PodResource × ℚ)) (t : ℚ),
      t = (m.map Prod.snd).sum →
      pods.foldl (fun t p => if includedPod config p then t + weightedCnt config p else t) t
        = ((pods.foldl
            (fun m p => if includedPod config p then addCnt m p (weightedCnt config p) else m)
            m).map Prod.snd).sum := by
  intro pods
  induction pods with
  | nil => exact fun m t ht => by simpa using ht
  | cons p rest ih =>
    intro m t ht
    by_cases hp : includedPod config p
    · simp only [List.foldl_cons, if_pos hp]
      exact ih (addCnt m p (weightedCnt config p)) (t + weightedCnt config p)
        (by rw [sum_addCnt, ht])
    · simp only [List.foldl_cons, if_neg hp]
      exact ih m t ht

lemma buildCnt_vals (config : TypicalPodsConfig) :
    ∀ (pods : List PodResource) (m : List (PodResource × ℚ)),
      (∀ p ∈ pods, 0 ≤ p.GpuNumber) → (∀ kv ∈ m, 0 ≤ kv.2) →
      ∀ kv ∈ pods.foldl
          (fun m p => if includedPod config p then addCnt m p (weightedCnt config p) else m)
          m, 0 ≤ kv.2 := by
  intro pods
  induction pods with
  | nil => exact fun m _ hm => hm
  | cons p rest ih =>
    intro m hp hm
    have hg : 0 ≤ p.GpuNumber := hp p (by simp)
    have hrest : ∀ q ∈ rest, 0 ≤ q.GpuNumber := fun q hq => hp q (by simp [hq])
    by_cases hinc : includedPod config p
    · simp only [List.foldl_cons, if_pos hinc]
      exact ih _ hrest (addCnt_vals p (weightedCnt config p)
        (weightedCnt_nonneg config p hg) m hm)
    · simp only [List.foldl_cons, if_neg hinc]
      exact ih m hrest hm

lemma innerLoop_spec (total : ℚ) (podResNum : Int) :
    ∀ (d i : Nat) (cum : ℚ) (l : TargetPodList), l.length - i ≤ d →
      (innerLoop total podResNum i cum l).2.2.length = l.length
      ∧ i ≤ (innerLoop total podResNum i cum l).1
      ∧ ¬(((innerLoop total podResNum i cum l).1 : Int) < podResNum
          ∧ (innerLoop total podResNum i cum l).1 < l.length)
      ∧ ((innerLoop total podResNum i cum l).1 : Int) ≤ max (i : Int) podResNum
      ∧ cum + ((l.drop i).map TargetPod.Percentage).sum
          = (innerLoop total podResNum i cum l).2.1
            + ((l.drop (innerLoop total podResNum i cum l).1).map TargetPod.Percentage).sum
      ∧ (innerLoop total podResNum i cum l).2.2.drop (innerLoop total podResNum i cum l).1
          = l.drop (innerLoop total podResNum i cum l).1
      ∧ (0 ≤ total → (∀ tp ∈ l, 0 ≤ tp.Percentage) →
          ∀ tp ∈ (innerLoop total podResNum i cum l).2.2, 0 ≤ tp.Percentage) := by
  intro d
  induction d with
  | zero =>
    intro i cum l hd
    have hc : ¬((i : Int) < podResNum ∧ i < l.length) := by
      intro hcontra
      omega
    rw [innerLoop, dif_neg hc]
    exact ⟨rfl, le_refl i, hc, le_max_left _ _, rfl, rfl, fun _ h => h⟩
  | succ d ih =>
    intro i cum l hd
    by_cases hc : (i : Int) < podResNum ∧ i < l.length
    · rw [innerLoop, dif_pos hc]
      set tp := l.get ⟨i, hc.2⟩ with htp
      set v : TargetPod := { tp with Percentage := tp.Percentage / total } with hv
      set l' := l.set i v with hl'
      have hlenl' : l'.length = l.length := List.length_set l _ _
      have hdl : l'.length - (i + 1) ≤ d := by
        rw [hlenl']
        omega
      obtain ⟨ih1, ih2, ih3, ih4, ih5, ih6, ih7⟩ := ih (i + 1) (cum + tp.Percentage) l' hdl
      have hdropset : ∀ (j : Nat), i < j → l'.drop j = l.drop j := by
        intro j hj
        rw [hl', List.drop_set]
        simp [hj]
      refine ⟨?_, ?_, ?_, ?_, ?_, ?_, ?_⟩
      · rw [ih1, hlenl']
      · omega
      · rw [← hlenl']
        exact ih3
      · have := ih4
        omega
      · rw [List.drop_eq_getElem_cons hc.2, List.map_cons, List.sum_cons]
        have hget : l[i] = tp := rfl
        rw [hget, ← add_assoc]
        rw [hdropset (i + 1) (by omega)] at ih5
        rw [ih5, hdropset _ (by omega)]
      · rw [ih6, hdropset _ (by omega)]
      · intro htot hents
        refine ih7 htot ?_
        intro x hx
        rcases List.mem_or_eq_of_mem_set hx with h | h
        · exact hents x h
        · rw [h, hv]
          refine div_nonneg (hents tp ?_) htot
          rw [htp]
          exact List.get_mem l i hc.2
    · rw [innerLoop, dif_neg hc]
      exact ⟨rfl, le_refl i, hc, le_max_left _ _, rfl, rfl, fun _ h => h⟩

lemma outerLoop_some (step : Int) (total expected : ℚ)
    (hs : 0 < step) (hexp : expected ≤ total) (htot : 0 ≤ total) :
    ∀ (fuel : Nat) (podResNum : Int) (i : Nat) (cum : ℚ) (l : TargetPodList),
      (i : Int) ≤ podResNum →
      cum + ((l.drop i).map TargetPod.Percentage).sum = total →
      (∀ tp ∈ l, 0 ≤ tp.Percentage) →
      l.length ≤ i + fuel →
      (outerLoop step total expected fuel podResNum i cum l).isSome := by
  intro fuel
  induction fuel with
  | zero =>
    intro podResNum i cum l _ hsum _ hlen
    have hdrop : l.drop i = [] := List.drop_eq_nil_of_le (by omega)
    rw [hdrop] at hsum
    simp only [List.map_nil, List.sum_nil, add_zero] at hsum
    rw [outerLoop, if_neg (not_lt.2 (hsum ▸ hexp))]
    simp
  | succ fuel ih =>
    intro podResNum i cum l hip hsum hents hlen
    rw [outerLoop]
    by_cases hcum : cum < expected
    · rw [if_pos hcum]
      have hilen : i < l.length := by
        by_contra hcon
        have hdrop : l.drop i = [] := List.drop_eq_nil_of_le (by omega)
        rw [hdrop] at hsum
        simp only [List.map_nil, List.sum_nil, add_zero] at hsum
        exact absurd hcum (not_lt.2 (hsum ▸ hexp))
      obtain ⟨ih1, ih2, ih3, ih4, ih5, ih6, ih7⟩ :=
        innerLoop_spec total (podResNum + step) (l.length - i) i cum l (le_refl _)
      set r := innerLoop total (podResNum + step) i cum l with hr
      have hprog : i + 1 ≤ r.1 := by
        rcases Nat.eq_or_lt_of_le ih2 with heq | hlt
        · exfalso
          exact ih3 ⟨by omega, by omega⟩
        · omega
      apply ih (podResNum + step) r.1 r.2.1 r.2.2
      · omega
      · rw [ih6, ← ih5]
        exact hsum
      · exact ih7 htot hents
      · rw [ih1]
        omega
    · rw [if_neg hcum]
      simp

/-- C10: the distiller's selection loop terminates: with the effective
popularity threshold at most 100 percent and a workload of pods with
nonnegative GPU counts (the data-model invariant, which keeps every
weighted count nonnegative), the expected count never exceeds the total
weighted count of the sorted list, and fuel length+1 suffices for the
outer loop, so GetTypicalPods returns a value. -/
theorem getTypicalPods_terminates (config : TypicalPodsConfig) (pods : List PodResource)
    (hth : effectiveThreshold config ≤ 100)
    (hgpu : ∀ p ∈ pods, 0 ≤ p.GpuNumber) :
    (GetTypicalPods config pods).isSome := by
  have htotal_eq : totalWeight config pods
      = ((buildCntMap config pods).map Prod.snd).sum := by
    unfold totalWeight buildCntMap
    exact totalWeight_foldl_eq config pods [] 0 (by simp)
  have hvals : ∀ kv ∈ buildCntMap config pods, 0 ≤ kv.2 := by
    unfold buildCntMap
    exact buildCnt_vals config pods [] hgpu (by simp)
  have htot0 : 0 ≤ totalWeight config pods := by
    rw [htotal_eq]
    refine List.sum_nonneg ?_
    intro x hx
    obtain ⟨kv, hkv, rfl⟩ := List.mem_map.1 hx
    exact hvals kv hkv
  have hsortperm : (SortTargetPodInDecreasingCount (buildCntMap config pods)).Perm
      ((buildCntMap config pods).map (fun kv => (⟨kv.1, kv.2⟩ : TargetPod))) :=
    List.perm_insertionSort podCntDescLe _
  have hsortsum :
      ((SortTargetPodInDecreasingCount (buildCntMap config pods)).map
        TargetPod.Percentage).sum = totalWeight config pods := by
    rw [htotal_eq]
    have h1 := (hsortperm.map TargetPod.Percentage).sum_eq
    rw [h1, List.map_map]
    rfl
  have hsortnn : ∀ tp ∈ SortTargetPodInDecreasingCount (buildCntMap config pods),
      0 ≤ tp.Percentage := by
    intro tp htp
    have := hsortperm.mem_iff.1 htp
    obtain ⟨kv, hkv, rfl⟩ := List.mem_map.1 this
    exact hvals kv hkv
  have hexp : (effectiveThreshold config : ℚ) * totalWeight config pods / 100
      ≤ totalWeight config pods := by
    rw [div_le_iff₀ (by norm_num : (0 : ℚ) < 100)]
    calc (effectiveThreshold config : ℚ) * totalWeight config pods
        ≤ 100 * totalWeight config pods := by
          refine mul_le_mul_of_nonneg_right ?_ htot0
          exact_mod_cast hth
      _ = totalWeight config pods * 100 := by ring
  have hstep : 0 < effectiveStep config := by
    unfold effectiveStep
    split_ifs with h
    · exact h
    · norm_num [DefaultTypicalPodIncreaseStep]
  have hsome := outerLoop_some (effectiveStep config) (totalWeight config pods)
    ((effectiveThreshold config : ℚ) * totalWeight config pods / 100)
    hstep hexp htot0
    ((SortTargetPodInDecreasingCount (buildCntMap config pods)).length + 1)
    0 0 0 (SortTargetPodInDecreasingCount (buildCntMap config pods))
    (by norm_num) (by simpa using hsortsum) hsortnn (by omega)
  simp only [GetTypicalPods]
  obtain ⟨x, hx⟩ := Option.isSome_iff_exists.1 hsome
  rw [hx]
  obtain ⟨i, cum, l⟩ := x
  by_cases hil : l.length ≤ i
  · simp [hil]
  · simp [hil]

/-- C10 witness: the distiller terminates on a one-pod workload with the
default threshold and step. -/
theorem getTypicalPods_terminates_witness :
    (GetTypicalPods ⟨true, 0, 0, 0⟩ [distPodA]).isSome :=
  getTypicalPods_terminates ⟨true, 0, 0, 0⟩ [distPodA] (by decide) (by decide)

/-! ### PWR score plugin (pwr_score.go) -/

/-- framework.MaxNodeScore of the scheduler framework. -/
def MaxNodeScore : Int := 100

/-- framework.MinNodeScore of the scheduler framework. -/
def MinNodeScore : Int := 0

/-- Go's int64(f) conversion for a finite float: truncation toward
zero. -/
def goTruncInt (q : ℚ) : Int :=
  if q < 0 then -(Int.floor (-q)) else Int.floor q

/-- Modelled from the spec: default CPU idle power (section 4.1 leaves the
energy constants to configuration; documented defaults are fixed here). -/
def cpuIdlePower : ℚ := 100

/-- Modelled from the spec: default CPU full-load power. -/
def cpuFullPower : ℚ := 400

/-- Modelled from the spec: default per-GPU idle power. -/
def gpuIdlePower : ℚ := 50

/-- Modelled from the spec: default per-GPU full-load power. -/
def gpuFullPower : ℚ := 300

/-- Modelled from the spec: default CPU capacity used for the CPU
utilization in the energy model. -/
def milliCpuCapacity : ℚ := 128000

/-- Modelled from the spec: GetEnergyConsumptionNode (section 4.1, absent
from src/): CPU energy is idle plus (busy minus idle) times utilization;
per-GPU energy likewise with utilization (1000 - left)/1000, the GPU
counting as off when its remaining millis are exactly 1000. -/
def GetEnergyConsumptionNode (n : NodeResource) : ℚ × ℚ :=
  (cpuIdlePower + (cpuFullPower - cpuIdlePower)
      * ((milliCpuCapacity - (n.MilliCpuLeft : ℚ)) / milliCpuCapacity),
   (n.MilliGpuLeftList.map (fun g =>
      if g = 1000 then 0
      else gpuIdlePower + (gpuFullPower - gpuIdlePower)
        * (((1000 : ℚ) - (g : ℚ)) / 1000))).sum)

def commaStr : String := ","

/-- Modelled from the spec: AllocateExclusiveGpuId (section 4.5, absent
from src/): pick the lowest-indexed fully-free GPUs (remaining millis
exactly 1000) until pod.gpuNumber are chosen; if not enough are free the
failure is an empty id. -/
def AllocateExclusiveGpuId (n : NodeResource) (p : PodResource) : String :=
  let free := (n.MilliGpuLeftList.enum.filter (fun x => x.2 = MILLI)).map Prod.fst
  if (free.length : Int) < p.GpuNumber then ""
  else String.intercalate commaStr ((free.take p.GpuNumber.toNat).map toString)

/-- The zero value of the NodeResource record, which Go's Sub returns
alongside an error; pwr_score.go line 134 ignores that error. -/
def emptyNodeResource : NodeResource :=
  { NodeName := "", MilliCpuLeft := 0, MemoryLeft := 0, MilliGpuLeftList := [], GpuType := "" }

/-- calculatePWRShareFragExtendScore of pwr_score.go lines 92-142,
parametric in the sigmoid (a real function whose values lie in [0,1]; its
floating-point formula is outside the embedding).  For a GPU-share pod it
scans the GPUs that can hold the share, scores the energy delta of placing
the pod there, and keeps the best-scoring GPU; otherwise it scores the
energy delta of the post-Sub node. -/
def calculatePWRShareFragExtendScore (sig : ℚ → ℚ) (nodeRes : NodeResource)
    (podRes : PodResource) : Int × String :=
  let old := (GetEnergyConsumptionNode nodeRes).1 + (GetEnergyConsumptionNode nodeRes).2
  if podRes.GpuNumber = 1 ∧ podRes.MilliGpu < MILLI then
    (List.range nodeRes.MilliGpuLeftList.length).foldl
      (fun st i =>
        if podRes.MilliGpu ≤ nodeRes.MilliGpuLeftList.getD i 0 then
          let newNode := { nodeRes with
            MilliCpuLeft := nodeRes.MilliCpuLeft - podRes.MilliCpu,
            MilliGpuLeftList := nodeRes.MilliGpuLeftList.set i
              (nodeRes.MilliGpuLeftList.getD i 0 - podRes.MilliGpu) }
          let newE := (GetEnergyConsumptionNode newNode).1
            + (GetEnergyConsumptionNode newNode).2
          let fragScore := goTruncInt (sig ((old - newE) / 1000) * (MaxNodeScore : ℚ))
          if st.2 = "" ∨ st.1 < fragScore then (fragScore, toString i) else st
        else st)
      ((0 : Int), "")
  else
    let newNode := (Sub nodeRes podRes).getD emptyNodeResource
    let newE := (GetEnergyConsumptionNode newNode).1 + (GetEnergyConsumptionNode newNode).2
    (goTruncInt (sig ((old - newE) / 1000) * (MaxNodeScore : ℚ)),
      AllocateExclusiveGpuId nodeRes podRes)

/-- A pod as the Score entry point sees it: whether
PodRequestsAndLimits came back empty, and the extracted pod resource. -/
structure PWRPodView where
  requestsEmpty : Bool
  res : PodResource
deriving DecidableEq, Repr

/-- PWRScorePlugin.Score of pwr_score.go lines 46-84: maximum score for a
pod requesting nothing, minimum score when the node cannot be retrieved or
is inaccessible to the pod, else the calculated share-frag-extend
score. -/
def PWRScore (sig : ℚ → ℚ) (nodeLookup : Option NodeResource) (pod : PWRPodView) : Int :=
  if pod.requestsEmpty then MaxNodeScore
  else
    match nodeLookup with
    | none => MinNodeScore
    | some nodeRes =>
      if IsNodeAccessibleToPod nodeRes pod.res = false then MinNodeScore
      else (calculatePWRShareFragExtendScore sig nodeRes pod.res).1

lemma goTrunc_bounds (q : ℚ) (h0 : 0 ≤ q) (h1 : q ≤ 100) :
    0 ≤ goTruncInt q ∧ goTruncInt q ≤ 100 := by
  unfold goTruncInt
  rw [if_neg (not_lt.2 h0)]
  constructor
  · exact Int.floor_nonneg.2 h0
  · have h := Int.floor_le_floor h1
    simpa using h

lemma sig_scaled_bounds (sig : ℚ → ℚ) (hsig : ∀ x, 0 ≤ sig x ∧ sig x ≤ 1) (x : ℚ) :
    0 ≤ sig x * (MaxNodeScore : ℚ) ∧ sig x * (MaxNodeScore : ℚ) ≤ 100 := by
  have h0 := (hsig x).1
  have h1 := (hsig x).2
  constructor
  · exact mul_nonneg h0 (by norm_num [MaxNodeScore])
  · calc sig x * (MaxNodeScore : ℚ) ≤ 1 * (MaxNodeScore : ℚ) :=
        mul_le_mul_of_nonneg_right h1 (by norm_num [MaxNodeScore])
    _ = 100 := by norm_num [MaxNodeScore]

/-- C8: the PWR plugin's score lies in [0, 100]: both the value computed by
calculatePWRShareFragExtendScore and the value returned by Score, for every
node, pod, and sigmoid function with values in [0,1] (as the real sigmoid
has). -/
theorem pwr_score_bounds (sig : ℚ → ℚ) (hsig : ∀ x, 0 ≤ sig x ∧ sig x ≤ 1)
    (nodeRes : NodeResource) (podRes : PodResource)
    (nodeLookup : Option NodeResource) (pod : PWRPodView) :
    (0 ≤ (calculatePWRShareFragExtendScore sig nodeRes podRes).1
      ∧ (calculatePWRShareFragExtendScore sig nodeRes podRes).1 ≤ 100)
    ∧ (0 ≤ PWRScore sig nodeLookup pod ∧ PWRScore sig nodeLookup pod ≤ 100) := by
  have hcalc : ∀ (n : NodeResource) (p : PodResource),
      0 ≤ (calculatePWRShareFragExtendScore sig n p).1
      ∧ (calculatePWRShareFragExtendScore sig n p).1 ≤ 100 := by
    intro n p
    unfold calculatePWRShareFragExtendScore
    split_ifs with hcase
    · have hfold := foldl_preserves
        (fun st : Int × String => 0 ≤ st.1 ∧ st.1 ≤ 100)
        (fun st i =>
          if p.MilliGpu ≤ n.MilliGpuLeftList.getD i 0 then
            let newNode := { n with
              MilliCpuLeft := n.MilliCpuLeft - p.MilliCpu,
              MilliGpuLeftList := n.MilliGpuLeftList.set i
                (n.MilliGpuLeftList.getD i 0 - p.MilliGpu) }
            let newE := (GetEnergyConsumptionNode newNode).1
              + (GetEnergyConsumptionNode newNode).2
            let fragScore := goTruncInt (sig
              (((GetEnergyConsumptionNode n).1 + (GetEnergyConsumptionNode n).2 - newE)
                / 1000) * (MaxNodeScore : ℚ))
            if st.2 = "" ∨ st.1 < fragScore then (fragScore, toString i) else st
          else st)
        ?_ (List.range n.MilliGpuLeftList.length) ((0 : Int), "")
        ⟨le_refl 0, by norm_num⟩
      · exact hfold
      · intro st i hst
        dsimp only
        split_ifs with hg hupd
        · obtain ⟨hq0, hq1⟩ := sig_scaled_bounds sig hsig _
          exact goTrunc_bounds _ hq0 hq1
        · exact hst
        · exact hst
    · obtain ⟨hq0, hq1⟩ := sig_scaled_bounds sig hsig _
      exact goTrunc_bounds _ hq0 hq1
  refine ⟨hcalc nodeRes podRes, ?_⟩
  unfold PWRScore
  split_ifs with hreq
  · norm_num [MaxNodeScore]
  · cases nodeLookup with
    | none => norm_num [MinNodeScore]
    | some nr =>
      dsimp only
      split_ifs with hacc
      · norm_num [MinNodeScore]
      · exact hcalc nr pod.res

/-- C8 witness: with the constant one-half sigmoid, the score of the
two-GPU node for the half-GPU pod and the Score entry point's value are
within bounds. -/
theorem pwr_score_bounds_witness :
    (0 ≤ (calculatePWRShareFragExtendScore (fun _ => 1/2) nodeTwoGpu podHalfGpu).1
      ∧ (calculatePWRShareFragExtendScore (fun _ => 1/2) nodeTwoGpu podHalfGpu).1 ≤ 100)
    ∧ (0 ≤ PWRScore (fun _ => 1/2) (some nodeTwoGpu) ⟨false, podHalfGpu⟩
      ∧ PWRScore (fun _ => 1/2) (some nodeTwoGpu) ⟨false, podHalfGpu⟩ ≤ 100) :=
  pwr_score_bounds (fun _ => 1/2) (fun _ => by norm_num)
    nodeTwoGpu podHalfGpu (some nodeTwoGpu) ⟨false, podHalfGpu⟩

end SchedSim
